import Mathlib

/-!
# Verification of the OOP single-file product-catalog example

A shallow embedding of `src/oop-products.js` (classes `Product`, `User`,
`AdminUser`, `ProductRepository`, `ProductService`) together with proofs of
the behavioral properties stated in the specification.

Modelling conventions:
* JavaScript numbers are modelled as exact rationals (`ℚ`); the special value
  `NaN` is represented explicitly where it can arise (the `JSValue.nan`
  constructor, and `Option ℚ` with `none` for `NaN` as the result of numeric
  coercion).  `Number(x.toFixed(2))` is modelled as rounding to two decimal
  places over `ℚ`.
* `throw new Error(...)` is modelled with `Except JSError`; the error kinds
  follow the specification's taxonomy (validation / not-found / type-mismatch),
  each carrying the message string of the source.
* Mutation is modelled by explicit state passing: a setter or method returns
  the updated object.  In the source every validating operation performs all
  checks before writing any field, so a thrown error leaves the object
  untouched; in the functional embedding this is reflected by the `Except`
  structure (an `error` result carries no updated object).
* `Math.random().toString(36)` and `new Date()` are oracle inputs, passed as
  explicit parameters (`rand : String`, `now : ℕ`).
* `Date` objects are modelled by their time value in milliseconds since the
  Unix epoch, restricted to non-negative values (`ℕ`); `toISOString` and
  ISO-8601 parsing are implemented over this model with proleptic Gregorian
  calendar arithmetic.
* JS `Map` is modelled as an insertion-ordered association list: `set` on an
  existing key replaces the value in place, otherwise appends.
-/

namespace OOP

/-- Error kinds per the specification's taxonomy, each carrying the message
string thrown by the source. -/
inductive JSError where
  | validationError (msg : String)
  | notFoundError (msg : String)
  | typeMismatchError (msg : String)
  deriving Repr, DecidableEq

/-- The slice of JavaScript values the embedded operations can receive:
finite numbers (as `ℚ`), `NaN`, strings, `null`, `undefined`, booleans. -/
inductive JSValue where
  | num (q : ℚ)
  | nan
  | str (s : String)
  | null
  | undef
  | bool (b : Bool)
  deriving Repr, DecidableEq

/-- JavaScript whitespace characters relevant to `String.prototype.trim` and
`Number` coercion (the common ASCII ones). -/
def isJsWs (c : Char) : Bool :=
  c = ' ' || c = '\t' || c = '\n' || c = '\r'

/-- Model of JS `String.prototype.trim`: drop leading and trailing
whitespace. -/
def jsTrim (s : String) : String :=
  ⟨((s.toList.dropWhile isJsWs).reverse.dropWhile isJsWs).reverse⟩

/-- Model of JS `String.prototype.slice(a, b)` (for non-negative bounds):
the characters at positions `[a, b)`. -/
def jsSlice (s : String) (a b : ℕ) : String :=
  ⟨(s.toList.drop a).take (b - a)⟩

/-- Model of JS `String.prototype.toLowerCase` (ASCII range). -/
def jsToLower (s : String) : String :=
  ⟨s.toList.map Char.toLower⟩

/-- Whether `needle` occurs as a contiguous run inside `hay`
(JS `String.prototype.includes` over character lists). -/
def listIncludes (hay needle : List Char) : Bool :=
  match hay with
  | [] => needle = ([] : List Char)
  | _ :: rest => needle.isPrefixOf hay || listIncludes rest needle

/-- Model of JS `String.prototype.includes`. -/
def jsIncludes (hay needle : String) : Bool :=
  listIncludes hay.toList needle.toList

/-- Digits of an unsigned decimal literal, as a number paired with the count
of fractional digits consumed so far: helper for `strToNumber`. -/
def readDecimalDigits : List Char → Option ℕ
  | [] => some 0
  | c :: cs =>
    if c.isDigit then
      match readDecimalDigits cs with
      | some n => some ((c.toNat - 48) * 10 ^ cs.length + n)
      | none => none
    else none

/-- Parse an unsigned decimal literal `digits[.digits]` into a rational.
Returns `none` when the shape is not a plain decimal literal. -/
def parseUnsignedDecimal (cs : List Char) : Option ℚ :=
  match cs.splitOn '.' with
  | [intPart] =>
    if intPart = [] then none else
    match readDecimalDigits intPart with
    | some n => some (n : ℚ)
    | none => none
  | [intPart, fracPart] =>
    if intPart = [] && fracPart = [] then none else
    match readDecimalDigits intPart, readDecimalDigits fracPart with
    | some n, some f => some ((n : ℚ) + (f : ℚ) / (10 : ℚ) ^ fracPart.length)
    | _, _ => none
  | _ => none

/-- Model of the JS `Number(string)` coercion for the plain-decimal fragment:
the string is trimmed; the empty string coerces to `0`; an optional sign
followed by a decimal literal coerces to its value; anything else is `NaN`
(`none`).  (Exotic forms such as hex, exponent notation or `Infinity` are
outside the modelled fragment and map to `none`.) -/
def strToNumber (s : String) : Option ℚ :=
  match (jsTrim s).toList with
  | [] => some 0
  | '-' :: rest => (parseUnsignedDecimal rest).map (fun q => -q)
  | '+' :: rest => parseUnsignedDecimal rest
  | cs => parseUnsignedDecimal cs

/-- Model of the JS `Number(value)` coercion; `none` stands for `NaN`. -/
def toNumber : JSValue → Option ℚ
  | .num q => some q
  | .nan => none
  | .str s => strToNumber s
  | .null => some 0
  | .undef => none
  | .bool b => some (if b then 1 else 0)

/-- Model of `Number(x.toFixed(2))`: round to two decimal places. -/
def round2 (q : ℚ) : ℚ :=
  ((round (q * 100) : ℤ) : ℚ) / 100

/-- Decimal rendering of a rational whose reduced denominator divides a power
of ten (the only numbers the embedded code produces); helper for
`jsNumToString`.  `k` is the least exponent with `q.den ∣ 10 ^ k`. -/
def ratDecimalRender (q : ℚ) (k : ℕ) : String :=
  let scaled : ℤ := (q * (10 : ℚ) ^ k).num
  let mag : ℕ := scaled.natAbs
  let sign : String := if scaled < 0 then "-" else ""
  if k = 0 then sign ++ toString mag
  else
    let digits := toString mag
    let padded := String.mk (List.replicate (k + 1 - digits.length) '0') ++ digits
    let cut := padded.length - k
    sign ++ String.mk (padded.toList.take cut) ++ "." ++ String.mk (padded.toList.drop cut)

/-- Model of JS number-to-string conversion for finite decimal numbers:
render with the fewest fractional digits.  Rationals that are not decimal
fractions do not arise from the embedded operations; they fall back to the
`ℚ` representation. -/
def jsNumToString (q : ℚ) : String :=
  match (List.range 40).find? (fun k => q.den ∣ 10 ^ k) with
  | some k => ratDecimalRender q k
  | none => toString q

/-- Model of the JS `String(value)` coercion. -/
def jsToString : JSValue → String
  | .num q => jsNumToString q
  | .nan => "NaN"
  | .str s => s
  | .null => "null"
  | .undef => "undefined"
  | .bool b => if b then "true" else "false"

/-! ## ISO-8601 timestamps (`Date.prototype.toISOString` / `new Date(string)`)

Time values are milliseconds since the Unix epoch, non-negative (`ℕ`).
`toISOString` emits `YYYY-MM-DDTHH:MM:SS.mmmZ` (years 1970–9999 in this
model); parsing accepts exactly that canonical form. -/

/-- Broken-down UTC time: calendar date plus time of day. -/
structure DateFields where
  year : ℕ
  month : ℕ
  day : ℕ
  hour : ℕ
  minute : ℕ
  second : ℕ
  milli : ℕ
  deriving Repr, DecidableEq

/-- Civil date from a count of days since 1970-01-01 (proleptic Gregorian
calendar, era-based algorithm). -/
def civilFromDays (days : ℕ) : ℕ × ℕ × ℕ :=
  let z := days + 719468
  let era := z / 146097
  let doe := z % 146097
  let yoe := (doe - doe / 1460 + doe / 36524 - doe / 146096) / 365
  let y := yoe + era * 400
  let doy := doe - (365 * yoe + yoe / 4 - yoe / 100)
  let mp := (5 * doy + 2) / 153
  let d := doy - (153 * mp + 2) / 5 + 1
  let m := if mp < 10 then mp + 3 else mp - 9
  (if m ≤ 2 then y + 1 else y, m, d)

/-- Days since 1970-01-01 of a civil date (inverse of `civilFromDays`). -/
def daysFromCivil (year m d : ℕ) : ℕ :=
  let y := if m ≤ 2 then year - 1 else year
  let era := y / 400
  let yoe := y % 400
  let mp := if 2 < m then m - 3 else m + 9
  let doy := (153 * mp + 2) / 5 + d - 1
  let doe := yoe * 365 + yoe / 4 - yoe / 100 + doy
  era * 146097 + doe - 719468

/-- Split a time value into broken-down UTC fields. -/
def msToFields (ms : ℕ) : DateFields :=
  let c := civilFromDays (ms / 86400000)
  { year := c.1, month := c.2.1, day := c.2.2
    hour := ms / 3600000 % 24
    minute := ms / 60000 % 60
    second := ms / 1000 % 60
    milli := ms % 1000 }

/-- Reassemble a time value from broken-down UTC fields. -/
def fieldsToMs (f : DateFields) : ℕ :=
  daysFromCivil f.year f.month f.day * 86400000 +
    f.hour * 3600000 + f.minute * 60000 + f.second * 1000 + f.milli

/-- The character for a single decimal digit. -/
def digitChar (d : ℕ) : Char := Char.ofNat (48 + d)

/-- The numeric value of a decimal digit character. -/
def charDigit (c : Char) : ℕ := c.toNat - 48

/-- Whether a character is a decimal digit (ASCII `0`–`9`). -/
def isDigitChar (c : Char) : Bool := 48 ≤ c.toNat && c.toNat ≤ 57

/-- Emit `k` decimal digits of `n`, most significant first (zero padded),
in front of `cs`. -/
def padNum : ℕ → ℕ → List Char → List Char
  | 0, _, cs => cs
  | k + 1, n, cs => digitChar (n / 10 ^ k % 10) :: padNum k n cs

/-- Consume exactly `k` decimal digits, extending the accumulator `acc`. -/
def readFixed : ℕ → ℕ → List Char → Option (ℕ × List Char)
  | 0, acc, cs => some (acc, cs)
  | k + 1, acc, c :: cs =>
    if isDigitChar c then readFixed k (acc * 10 + charDigit c) cs else none
  | _ + 1, _, [] => none

/-- Consume one expected literal character. -/
def expectChar (c : Char) : List Char → Option (List Char)
  | c' :: cs => if c' = c then some cs else none
  | [] => none

/-- The characters of the canonical ISO-8601 rendering of broken-down
fields: `YYYY-MM-DDTHH:MM:SS.mmmZ`. -/
def isoChars (f : DateFields) : List Char :=
  padNum 4 f.year ('-' :: padNum 2 f.month ('-' :: padNum 2 f.day
    ('T' :: padNum 2 f.hour (':' :: padNum 2 f.minute (':' :: padNum 2 f.second
      ('.' :: padNum 3 f.milli ['Z']))))))

/-- Model of `Date.prototype.toISOString` on the non-negative, four-digit-year
range of time values. -/
def toISOString (ms : ℕ) : String :=
  ⟨isoChars (msToFields ms)⟩

/-- Consume a fixed-width decimal field followed by a literal separator. -/
def readField (k : ℕ) (sep : Char) (cs : List Char) : Option (ℕ × List Char) :=
  match readFixed k 0 cs with
  | some (n, cs) =>
    match expectChar sep cs with
    | some cs => some (n, cs)
    | none => none
  | none => none

/-- Parse the canonical ISO-8601 form back into broken-down fields. -/
def parseISOChars (cs : List Char) : Option DateFields :=
  match readField 4 '-' cs with
  | none => none
  | some (y, cs) =>
  match readField 2 '-' cs with
  | none => none
  | some (mo, cs) =>
  match readField 2 'T' cs with
  | none => none
  | some (d, cs) =>
  match readField 2 ':' cs with
  | none => none
  | some (h, cs) =>
  match readField 2 ':' cs with
  | none => none
  | some (mi, cs) =>
  match readField 2 '.' cs with
  | none => none
  | some (s, cs) =>
  match readFixed 3 0 cs with
  | none => none
  | some (ml, cs) =>
  match expectChar 'Z' cs with
  | none => none
  | some cs =>
  match cs with
  | [] => some ⟨y, mo, d, h, mi, s, ml⟩
  | _ => none

/-- Model of `new Date(isoString)`: the time value of a canonical ISO-8601
string, `none` when the string is not in that form (JS "Invalid Date"). -/
def parseJSDateMs (s : String) : Option ℕ :=
  (parseISOChars s.toList).map fieldsToMs

/-! ## `class Product` (encapsulation) -/

/-- The observable state of a `Product` instance: the five private fields.
`createdAt` is the `Date`'s time value in milliseconds (model restricted to
non-negative times). -/
structure Product where
  id : String
  name : String
  price : ℚ
  owner : String
  createdAt : ℕ
  deriving Repr, DecidableEq

namespace Product

/-- `Product.generateId`: `"p_" + Math.random().toString(36).slice(2, 10)`,
with `rand` standing for the oracle output `Math.random().toString(36)`. -/
def generateId (rand : String) : String :=
  "p_" ++ jsSlice rand 2 10

/-- The validation performed by the `name` setter:
`if (!val || typeof val !== "string" || val.trim().length < 2) throw`;
on success the stored value is the trimmed string.  (A falsy string is the
empty string, which the trimmed-length check also rejects.) -/
def validateName (val : JSValue) : Except JSError String :=
  match val with
  | .str s =>
    if (jsTrim s).length < 2 then
      .error (.validationError "Invalid product name (2+ chars required).")
    else .ok (jsTrim s)
  | _ => .error (.validationError "Invalid product name (2+ chars required).")

/-- The validation performed by the `price` setter: `const num = Number(val);
if (Number.isNaN(num) || num < 0) throw`; on success the stored value is
`Number(num.toFixed(2))`. -/
def validatePrice (val : JSValue) : Except JSError ℚ :=
  match toNumber val with
  | none => .error (.validationError "Invalid price (must be >= 0).")
  | some num =>
    if num < 0 then .error (.validationError "Invalid price (must be >= 0).")
    else .ok (round2 num)

/-- `set name(val)`: validate, then write the trimmed name. -/
def setName (p : Product) (val : JSValue) : Except JSError Product :=
  (validateName val).map (fun s => { p with name := s })

/-- `set price(val)`: validate, then write the rounded price. -/
def setPrice (p : Product) (val : JSValue) : Except JSError Product :=
  (validatePrice val).map (fun q => { p with price := q })

/-- The `Product` constructor: `id ?? generateId()`, `name`/`price` through
the validating setters, `owner ?? "unknown"`, `createdAt ?? new Date()`.
`rand` and `now` are the oracle inputs for `Math.random().toString(36)` and
`new Date()`. -/
def construct (id : Option String) (name price : JSValue) (owner : Option String)
    (createdAt : Option ℕ) (rand : String) (now : ℕ) : Except JSError Product := do
  let n ← validateName name
  let q ← validatePrice price
  .ok { id := id.getD (generateId rand), name := n, price := q,
        owner := owner.getD "unknown", createdAt := createdAt.getD now }

/-- `applyDiscount(percent)`: coerce, range-check, then store and return
`Number((price * (1 - p / 100)).toFixed(2))`.  The result pairs the returned
new price with the updated product. -/
def applyDiscount (p : Product) (percent : JSValue) : Except JSError (ℚ × Product) :=
  match toNumber percent with
  | none => .error (.validationError "Discount percent must be between 0 and 100.")
  | some pc =>
    if pc < 0 ∨ 100 < pc then
      .error (.validationError "Discount percent must be between 0 and 100.")
    else
      let newPrice := round2 (p.price * (1 - pc / 100))
      .ok (newPrice, { p with price := newPrice })

/-- The plain record produced by `toJSON()`: the timestamp serialized with
`toISOString()`. -/
structure JSONRecord where
  id : String
  name : String
  price : ℚ
  owner : String
  createdAt : String
  deriving Repr, DecidableEq

/-- `toJSON()`. -/
def toJSON (p : Product) : JSONRecord :=
  { id := p.id, name := p.name, price := p.price, owner := p.owner,
    createdAt := toISOString p.createdAt }

/-- `Product.fromJSON(json)`: rebuild through the constructor;
`createdAt: json.createdAt ? new Date(json.createdAt) : undefined`.
(An unparseable non-empty timestamp string would produce a JS "Invalid
Date"; such states are outside this model and fall back to the
constructor's `now` default.) -/
def fromJSON (j : JSONRecord) (rand : String) (now : ℕ) : Except JSError Product :=
  construct (some j.id) (.str j.name) (.num j.price) (some j.owner)
    (if j.createdAt = "" then none else parseJSDateMs j.createdAt) rand now

end Product

/-! ## `class User` (composition) -/

/-- The observable state of a `User`: identity fields plus the owned product
collection, in insertion order. -/
structure User where
  name : String
  email : String
  role : String
  products : List Product
  deriving Repr, DecidableEq

namespace User

/-- The `User` constructor (`role` defaults to `"user"` at call sites). -/
def make (name email role : String) : User :=
  { name := name, email := email, role := role, products := [] }

/-- `isAdmin()`. -/
def isAdmin (u : User) : Bool :=
  u.role = "admin"

/-- `addProduct(name, price)`: construct a product owned by this user and
append it. -/
def addProduct (u : User) (name price : JSValue) (rand : String) (now : ℕ) :
    Except JSError (Product × User) :=
  (Product.construct none name price (some u.name) none rand now).map
    (fun p => (p, { u with products := u.products ++ [p] }))

/-- `listProducts()`: a shallow copy of the collection. -/
def listProducts (u : User) : List Product :=
  u.products

/-- `findProductsByName(q)`: stringify and lowercase the query, then filter
by case-insensitive substring match. -/
def findProductsByName (u : User) (q : JSValue) : List Product :=
  let term := jsToLower (jsToString q)
  u.products.filter (fun p => jsIncludes (jsToLower p.name) term)

/-- `findIndex` + `splice(idx, 1)`: remove the first list element satisfying
the predicate, returning it and the remaining list. -/
def removeFirst (pred : Product → Bool) : List Product → Option (Product × List Product)
  | [] => none
  | p :: rest =>
    if pred p then some (p, rest)
    else (removeFirst pred rest).map (fun q => (q.1, p :: q.2))

/-- `deleteProduct(productId)`: locate by id via `findIndex`; throw
`NotFoundError` if absent; otherwise splice it out and return it. -/
def deleteProduct (u : User) (productId : String) : Except JSError (Product × User) :=
  match removeFirst (fun p => p.id = productId) u.products with
  | none => .error (.notFoundError "Product not found")
  | some (deleted, rest) => .ok (deleted, { u with products := rest })

end User

/-! ## `class AdminUser extends User` (inheritance) -/

/-- A value passed where a `User` is expected: either an actual `User`
instance (which includes `AdminUser`s, as the subclass passes `instanceof
User`) or any other JS value. -/
inductive JSTarget where
  | user (u : User)
  | other (v : JSValue)
  deriving Repr, DecidableEq

namespace AdminUser

/-- The `AdminUser` constructor: `super(name, email, "admin")`. -/
def make (name email : String) : User :=
  User.make name email "admin"

set_option linter.unusedVariables false in
/-- `deleteProductFromUser(targetUser, productId)`: reject non-`User`
targets, otherwise delegate to `targetUser.deleteProduct`.  The method lives
on the admin instance (first parameter), which the body never consults. -/
def deleteProductFromUser (admin : User) (target : JSTarget) (productId : String) :
    Except JSError (Product × User) :=
  match target with
  | .other _ => .error (.typeMismatchError "Target must be a User instance.")
  | .user u => u.deleteProduct productId

end AdminUser

/-! ## `class ProductRepository` (in-memory Map) -/

/-- JS `Map.set`: replace in place when the key exists, else append. -/
def mapSet (m : List (String × Product)) (k : String) (v : Product) :
    List (String × Product) :=
  match m with
  | [] => [(k, v)]
  | (k', v') :: rest => if k' = k then (k, v) :: rest else (k', v') :: mapSet rest k v

/-- JS `Map.get` (as `Option`). -/
def mapGet (m : List (String × Product)) (k : String) : Option Product :=
  match m with
  | [] => none
  | (k', v') :: rest => if k' = k then some v' else mapGet rest k

/-- JS `Map.delete`: whether the key was present, and the remaining map. -/
def mapDelete (m : List (String × Product)) (k : String) :
    Bool × List (String × Product) :=
  match m with
  | [] => (false, [])
  | (k', v') :: rest =>
    if k' = k then (true, rest)
    else
      let r := mapDelete rest k
      (r.1, (k', v') :: r.2)

/-- The repository state: its insertion-ordered `Map<string, Product>`. -/
structure ProductRepository where
  store : List (String × Product)
  deriving Repr, DecidableEq

namespace ProductRepository

/-- `new ProductRepository()`. -/
def empty : ProductRepository := { store := [] }

/-- `create(product)`: `store.set(product.id, product)`.  (The source's
`instanceof Product` guard is vacuous in the typed model.) -/
def create (r : ProductRepository) (p : Product) : ProductRepository :=
  { store := mapSet r.store p.id p }

/-- `getById(id)`: `store.get(id) ?? null`, as `Option`. -/
def getById (r : ProductRepository) (id : String) : Option Product :=
  mapGet r.store id

/-- `getAll()`: the values in insertion order. -/
def getAll (r : ProductRepository) : List Product :=
  r.store.map Prod.snd

/-- `update(product)`: throw `NotFoundError` unless the key exists, then
`set`.  (The `instanceof Product` guard is vacuous in the typed model.) -/
def update (r : ProductRepository) (p : Product) : Except JSError ProductRepository :=
  if (mapGet r.store p.id).isSome then .ok { store := mapSet r.store p.id p }
  else .error (.notFoundError "Product not found")

/-- `delete(id)`: `store.delete(id)` — boolean success, never a throw. -/
def delete (r : ProductRepository) (id : String) : Bool × ProductRepository :=
  let d := mapDelete r.store id
  (d.1, { store := d.2 })

/-- `findByNameLike(q)`: stringify and lowercase the query, then filter all
values by case-insensitive substring match. -/
def findByNameLike (r : ProductRepository) (q : JSValue) : List Product :=
  let term := jsToLower (jsToString q)
  (getAll r).filter (fun p => jsIncludes (jsToLower p.name) term)

end ProductRepository

/-! ## `class ProductService` (business logic over a repository) -/

namespace ProductService

/-- `addNewProduct(name, price, owner)`: construct and `repo.create`;
returns the created product with the updated repository. -/
def addNewProduct (repo : ProductRepository) (name price : JSValue)
    (owner : Option String) (rand : String) (now : ℕ) :
    Except JSError (Product × ProductRepository) :=
  (Product.construct none name price owner none rand now).map
    (fun p => (p, repo.create p))

/-- `listAll()`. -/
def listAll (repo : ProductRepository) : List Product :=
  repo.getAll

/-- `search(term)`. -/
def search (repo : ProductRepository) (term : JSValue) : List Product :=
  repo.findByNameLike term

/-- `discount(id, percent)`: throw `NotFoundError` when the id is absent;
otherwise apply the product's `applyDiscount` (whose `ValidationError`
propagates) and persist via `repo.update`. -/
def discount (repo : ProductRepository) (id : String) (percent : JSValue) :
    Except JSError ProductRepository :=
  match repo.getById id with
  | none => .error (.notFoundError "Product not found")
  | some p => (p.applyDiscount percent).bind (fun r => repo.update r.2)

/-- `remove(id)`: `repo.delete`, throwing `NotFoundError` on a `false`
result. -/
def remove (repo : ProductRepository) (id : String) :
    Except JSError ProductRepository :=
  let d := repo.delete id
  if d.1 then .ok d.2 else .error (.notFoundError "Product not found")

end ProductService

/-- The invariant of claim C1: non-negative price and at least two trimmed
name characters. -/
def ProductInv (p : Product) : Prop :=
  0 ≤ p.price ∧ 2 ≤ (jsTrim p.name).length

/-- Whether an error is of the validation kind. -/
def JSError.isValidation : JSError → Bool
  | .validationError _ => true
  | _ => false

/-- The keys of a repository store are pairwise distinct (holds for every
store reachable through `create`/`update`/`delete`). -/
def keysNodup (r : ProductRepository) : Prop :=
  (r.store.map Prod.fst).Nodup

/-! # Helper lemmas -/

theorem jsTrim_eq (s : String) :
    jsTrim s = ⟨List.rdropWhile isJsWs (s.toList.dropWhile isJsWs)⟩ := rfl

theorem trimList_idem (l : List Char) :
    List.rdropWhile isJsWs (List.dropWhile isJsWs
        (List.rdropWhile isJsWs (List.dropWhile isJsWs l)))
      = List.rdropWhile isJsWs (List.dropWhile isJsWs l) := by
  set m := List.dropWhile isJsWs l with hm
  have hpre : List.rdropWhile isJsWs m <+: m := List.rdropWhile_prefix _ _
  obtain ⟨t, ht⟩ := hpre
  have hm2 : List.dropWhile isJsWs m = m := by
    rw [hm]; exact List.dropWhile_idempotent _ _
  have hdw : List.dropWhile isJsWs (List.rdropWhile isJsWs m)
      = List.rdropWhile isJsWs m := by
    rcases hcase : List.rdropWhile isJsWs m with _ | ⟨c, cs⟩
    · simp
    · rw [hcase] at ht
      have hc : isJsWs c = false := by
        by_contra hcc
        have hcc' : isJsWs c = true := by
          cases hval : isJsWs c
          · exact absurd hval hcc
          · rfl
        rw [← ht, List.cons_append, List.dropWhile_cons_of_pos hcc'] at hm2
        have hlen := congrArg List.length hm2
        have hle : (List.dropWhile isJsWs (cs ++ t)).length ≤ (cs ++ t).length :=
          (List.dropWhile_sublist _).length_le
        simp [List.length_append] at hlen hle
        omega
      simp [List.dropWhile_cons, hc]
  rw [hdw, List.rdropWhile_idempotent]

theorem jsTrim_idem (s : String) : jsTrim (jsTrim s) = jsTrim s := by
  rw [jsTrim_eq, jsTrim_eq s]
  exact congrArg String.mk (trimList_idem s.toList)

theorem round2_nonneg (q : ℚ) (h : 0 ≤ q) : 0 ≤ round2 q := by
  unfold round2
  have h1 : (0 : ℤ) ≤ round (q * 100) := by
    rw [round_eq]
    rw [Int.le_floor]
    push_cast
    nlinarith
  positivity

theorem round2_round2 (q : ℚ) : round2 (round2 q) = round2 q := by
  unfold round2
  have : ((round (q * 100) : ℤ) : ℚ) / 100 * 100 = ((round (q * 100) : ℤ) : ℚ) := by
    field_simp
  rw [this, round_intCast]

theorem mapGet_eq_none_iff (m : List (String × Product)) (k : String) :
    mapGet m k = none ↔ k ∉ m.map Prod.fst := by
  induction m with
  | nil => simp [mapGet]
  | cons hd tl ih =>
    obtain ⟨k', v'⟩ := hd
    by_cases hk : k' = k
    · subst hk
      simp [mapGet]
    · have hk' : ¬(k = k') := fun h => hk h.symm
      simp [mapGet, hk, hk', ih]

theorem mapDelete_fst (m : List (String × Product)) (k : String) :
    (mapDelete m k).1 = (mapGet m k).isSome := by
  induction m with
  | nil => simp [mapDelete, mapGet]
  | cons hd tl ih =>
    obtain ⟨k', v'⟩ := hd
    by_cases hk : k' = k <;> simp [mapDelete, mapGet, hk, ih]

theorem mapDelete_keys (m : List (String × Product)) (k : String) (h : (m.map Prod.fst).Nodup) :
    mapGet (mapDelete m k).2 k = none := by
  induction m with
  | nil => simp [mapDelete, mapGet]
  | cons hd tl ih =>
    obtain ⟨k', v'⟩ := hd
    simp only [List.map_cons, List.nodup_cons] at h
    by_cases hk : k' = k
    · subst hk
      simp only [mapDelete, if_pos rfl]
      exact (mapGet_eq_none_iff tl k').mpr h.1
    · simp only [mapDelete, if_neg hk]
      simpa [mapGet, hk] using ih h.2

theorem validateName_ok (v : JSValue) (s : String) (h : Product.validateName v = .ok s) :
    2 ≤ (jsTrim s).length ∧ jsTrim s = s := by
  cases v with
  | str s0 =>
    simp only [Product.validateName] at h
    by_cases hlen : (jsTrim s0).length < 2
    · rw [if_pos hlen] at h
      cases h
    · rw [if_neg hlen] at h
      cases h
      refine ⟨?_, jsTrim_idem s0⟩
      rw [jsTrim_idem s0]
      omega
  | num q => simp [Product.validateName] at h
  | nan => simp [Product.validateName] at h
  | null => simp [Product.validateName] at h
  | undef => simp [Product.validateName] at h
  | bool b => simp [Product.validateName] at h

theorem validatePrice_ok (v : JSValue) (q : ℚ) (h : Product.validatePrice v = .ok q) :
    0 ≤ q ∧ round2 q = q := by
  unfold Product.validatePrice at h
  rcases hv : toNumber v with _ | num <;> rw [hv] at h <;> dsimp only at h
  · cases h
  · by_cases hneg : num < 0
    · rw [if_pos hneg] at h
      cases h
    · rw [if_neg hneg] at h
      cases h
      exact ⟨round2_nonneg num (le_of_not_lt hneg), round2_round2 num⟩

theorem construct_eq (ido : Option String) (nm pr : JSValue) (ow : Option String)
    (ca : Option ℕ) (rand : String) (now : ℕ) :
    Product.construct ido nm pr ow ca rand now =
      match Product.validateName nm, Product.validatePrice pr with
      | .ok s, .ok q =>
        .ok (Product.mk (ido.getD (Product.generateId rand)) s q (ow.getD "unknown")
          (ca.getD now))
      | .error e, _ => .error e
      | .ok _, .error e => .error e := by
  unfold Product.construct
  rcases Product.validateName nm with e | s <;>
    rcases Product.validatePrice pr with f | q <;>
    rfl

set_option maxHeartbeats 8000000 in
theorem yoe_window (doe : ℕ) (h : doe ≤ 146096) :
    365 * ((doe - doe / 1460 + doe / 36524 - doe / 146096) / 365)
      + ((doe - doe / 1460 + doe / 36524 - doe / 146096) / 365) / 4
      - ((doe - doe / 1460 + doe / 36524 - doe / 146096) / 365) / 100 ≤ doe ∧
    doe ≤ 365 * ((doe - doe / 1460 + doe / 36524 - doe / 146096) / 365)
      + ((doe - doe / 1460 + doe / 36524 - doe / 146096) / 365) / 4
      - ((doe - doe / 1460 + doe / 36524 - doe / 146096) / 365) / 100 + 365 := by
  have hq : doe / 1460 ≤ 100 := by omega
  have he : doe / 36524 ≤ 4 := by omega
  set Q := doe / 1460 with hQ
  set E := doe / 36524 with hE
  interval_cases Q <;> interval_cases E <;> omega

set_option maxHeartbeats 2000000 in
theorem civil_roundtrip (days : ℕ) :
    daysFromCivil (civilFromDays days).1 (civilFromDays days).2.1 (civilFromDays days).2.2
      = days := by
  have hwin := yoe_window ((days + 719468) % 146097) (by omega)
  unfold civilFromDays daysFromCivil
  dsimp only
  set doe := (days + 719468) % 146097 with hdoe
  set era := (days + 719468) / 146097 with hera
  set yoe := (doe - doe / 1460 + doe / 36524 - doe / 146096) / 365 with hyoe
  obtain ⟨h1, h2⟩ := hwin
  have h3 : yoe ≤ 399 := by omega
  have hdlt : doe ≤ 146096 := by omega
  have hsplit : days + 719468 = era * 146097 + doe := by omega
  have hd400 : (yoe + era * 400) / 400 = era := by omega
  have hm400 : (yoe + era * 400) % 400 = yoe := by omega
  clear hyoe hdoe hera
  split_ifs <;>
    (try simp only [Nat.add_sub_cancel]) <;>
    (try (have e1 : (5 * (doe - (365 * yoe + yoe / 4 - yoe / 100)) + 2) / 153 - 9 + 9
          = (5 * (doe - (365 * yoe + yoe / 4 - yoe / 100)) + 2) / 153 := by omega
          simp only [e1])) <;>
    (try simp only [hd400, hm400]) <;>
    omega

set_option maxHeartbeats 1000000 in
theorem civilFromDays_bounds (days : ℕ) :
    (civilFromDays days).2.1 < 100 ∧ (civilFromDays days).2.2 < 100 ∧
    (days ≤ 2932896 → (civilFromDays days).1 < 10000) := by
  have hwin := yoe_window ((days + 719468) % 146097) (by omega)
  unfold civilFromDays
  dsimp only
  set doe := (days + 719468) % 146097 with hdoe
  set era := (days + 719468) / 146097 with hera
  set yoe := (doe - doe / 1460 + doe / 36524 - doe / 146096) / 365 with hyoe
  obtain ⟨h1, h2⟩ := hwin
  have h3 : yoe ≤ 399 := by omega
  have hdlt : doe ≤ 146096 := by omega
  have hsplit : days + 719468 = era * 146097 + doe := by omega
  clear hyoe hdoe hera
  refine ⟨?_, ?_, fun hdays => ?_⟩ <;> (first | (split_ifs <;> omega) | omega)

theorem ms_roundtrip (ms : ℕ) : fieldsToMs (msToFields ms) = ms := by
  unfold msToFields fieldsToMs
  dsimp only
  rw [civil_roundtrip (ms / 86400000)]
  omega

theorem digitChar_isDigit (d : ℕ) (h : d < 10) :
    isDigitChar (digitChar d) = true ∧ charDigit (digitChar d) = d := by
  interval_cases d <;> exact ⟨rfl, rfl⟩

theorem readFixed_padNum (k : ℕ) (n : ℕ) (cs : List Char) :
    ∀ acc, readFixed k acc (padNum k n cs) = some (acc * 10 ^ k + n % 10 ^ k, cs) := by
  induction k with
  | zero => intro acc; simp [readFixed, padNum, Nat.mod_one]
  | succ k ih =>
    intro acc
    have hd := digitChar_isDigit (n / 10 ^ k % 10) (Nat.mod_lt _ (by norm_num))
    simp only [padNum, readFixed, hd.1, if_true, hd.2, ih]
    congr 2
    rw [pow_succ, Nat.mod_mul]
    ring

theorem expectChar_cons (c : Char) (cs : List Char) : expectChar c (c :: cs) = some cs := by
  simp [expectChar]

theorem readField_pad (k : ℕ) (n : ℕ) (sep : Char) (rest : List Char) (h : n < 10 ^ k) :
    readField k sep (padNum k n (sep :: rest)) = some (n, rest) := by
  simp [readField, readFixed_padNum, expectChar_cons, Nat.mod_eq_of_lt h]

theorem parseISOChars_isoChars (f : DateFields) (hy : f.year < 10000)
    (hmo : f.month < 100) (hd : f.day < 100) (hh : f.hour < 100)
    (hmi : f.minute < 100) (hs : f.second < 100) (hml : f.milli < 1000) :
    parseISOChars (isoChars f) = some f := by
  unfold isoChars parseISOChars
  rw [readField_pad 4 f.year '-' _ hy]; dsimp only
  rw [readField_pad 2 f.month '-' _ (by omega)]; dsimp only
  rw [readField_pad 2 f.day 'T' _ (by omega)]; dsimp only
  rw [readField_pad 2 f.hour ':' _ (by omega)]; dsimp only
  rw [readField_pad 2 f.minute ':' _ (by omega)]; dsimp only
  rw [readField_pad 2 f.second '.' _ (by omega)]; dsimp only
  rw [readFixed_padNum 3 f.milli _ 0]; dsimp only
  rw [expectChar_cons]
  norm_num [Nat.mod_eq_of_lt hml]

theorem msToFields_bounds (ms : ℕ) (h : ms < 253402300800000) :
    (msToFields ms).year < 10000 ∧ (msToFields ms).month < 100 ∧
    (msToFields ms).day < 100 ∧ (msToFields ms).hour < 100 ∧
    (msToFields ms).minute < 100 ∧ (msToFields ms).second < 100 ∧
    (msToFields ms).milli < 1000 := by
  have hb := civilFromDays_bounds (ms / 86400000)
  unfold msToFields
  dsimp only
  exact ⟨hb.2.2 (by omega), hb.1, hb.2.1, by omega, by omega, by omega, by omega⟩

theorem toISOString_ne_empty (ms : ℕ) : toISOString ms ≠ "" := by
  intro h
  have hd := congrArg String.data h
  simp [toISOString, isoChars, padNum] at hd

theorem parse_toISOString (ms : ℕ) (h : ms < 253402300800000) :
    parseJSDateMs (toISOString ms) = some ms := by
  obtain ⟨hy, hmo, hd, hh, hmi, hs, hml⟩ := msToFields_bounds ms h
  unfold parseJSDateMs toISOString
  rw [show (String.mk (isoChars (msToFields ms))).toList = isoChars (msToFields ms) from rfl]
  rw [parseISOChars_isoChars (msToFields ms) hy hmo hd hh hmi hs hml]
  simp only [Option.map_some']
  rw [ms_roundtrip]

theorem mapGet_mapSet_self (m : List (String × Product)) (k : String) (v : Product) :
    mapGet (mapSet m k v) k = some v := by
  induction m with
  | nil => simp [mapSet, mapGet]
  | cons hd tl ih =>
    obtain ⟨k', v'⟩ := hd
    by_cases hk : k' = k
    · simp [mapSet, mapGet, hk]
    · simp [mapSet, mapGet, hk, ih]

/-! # The claims -/

/-- C8: `ProductRepository.delete` never throws (it is a total function into
`Bool × ProductRepository`); it returns `true` exactly when a product with
the given id is stored, removes it, and a second `delete` with the same id
returns `false`. -/
theorem C8_repository_delete (r : ProductRepository) (id : String) (h : keysNodup r) :
    ((r.delete id).1 = true ↔ (r.getById id).isSome = true) ∧
    (r.delete id).2.getById id = none ∧
    ((r.delete id).2.delete id).1 = false := by
  refine ⟨?_, ?_, ?_⟩
  · simp [ProductRepository.delete, ProductRepository.getById, mapDelete_fst]
  · simpa [ProductRepository.delete, ProductRepository.getById] using
      mapDelete_keys r.store id h
  · have h2 : (r.delete id).2.getById id = none := by
      simpa [ProductRepository.delete, ProductRepository.getById] using
        mapDelete_keys r.store id h
    simp only [ProductRepository.delete, ProductRepository.getById] at h2 ⊢
    rw [mapDelete_fst, h2]
    rfl

/-- C8 witness: on the store holding a single product keyed `"p_x"`,
`delete "p_x"` returns `true` and removes it, and deleting again returns
`false`. -/
theorem C8_repository_delete_witness :
    ∃ r : ProductRepository,
      ((r.delete "p_x").1 = true ↔ (r.getById "p_x").isSome = true) ∧
      (r.delete "p_x").2.getById "p_x" = none ∧
      ((r.delete "p_x").2.delete "p_x").1 = false :=
  ⟨ProductRepository.mk [("p_x", Product.mk "p_x" "Phone" 100 "Mona" 0)],
    C8_repository_delete _ "p_x" (by simp [keysNodup])⟩

/-- C9: the price setter coerces with `Number(...)` and rejects exactly the
inputs whose coercion is `NaN` or negative; a coercible non-negative input
(numeric string, `null`, `true`) is accepted and stored rounded to two
decimals. -/
theorem C9_price_setter_coercion (p : Product) (v : JSValue) :
    (Product.setPrice p v = .error (.validationError "Invalid price (must be >= 0).") ↔
      toNumber v = none ∨ ∃ q, toNumber v = some q ∧ q < 0) ∧
    (∀ q, toNumber v = some q → 0 ≤ q →
      Product.setPrice p v = .ok { p with price := round2 q }) ∧
    toNumber .null = some 0 ∧
    toNumber (.bool true) = some 1 ∧
    toNumber (.str "10.5") = some (21 / 2) := by
  refine ⟨?_, ?_, rfl, rfl, ?_⟩
  · unfold Product.setPrice Product.validatePrice
    rcases hv : toNumber v with _ | q
    · simp [hv, Except.map]
    · by_cases hq : q < 0
      · simp [hv, hq, Except.map]
      · simp only [hv, if_neg hq, Except.map]
        constructor
        · intro hcontra; cases hcontra
        · rintro (hnone | ⟨q', hq', hlt⟩)
          · cases hnone
          · cases hq'; exact absurd hlt hq
  · intro q hq hpos
    unfold Product.setPrice Product.validatePrice
    rw [hq]
    simp [not_lt.mpr hpos, Except.map]
  · rw [show toNumber (.str "10.5")
        = some (((10 : ℕ) : ℚ) + ((5 : ℕ) : ℚ) / (10 : ℚ) ^ (1 : ℕ)) from rfl]
    norm_num

/-- C9 witness: on a concrete product, `null` coerces to `0`, `true` to `1`
and `"10.5"` to `10.5`, all accepted. -/
theorem C9_price_setter_coercion_witness :
    Product.setPrice (Product.mk "p_a" "Phone" 10 "Mona" 0) .null
      = .ok (Product.mk "p_a" "Phone" (round2 0) "Mona" 0) :=
  (C9_price_setter_coercion (Product.mk "p_a" "Phone" 10 "Mona" 0) .null).2.1 0 rfl le_rfl

/-- C1: every operation on a `Product` (construction, the name setter, the
price setter, `applyDiscount`) establishes or preserves the invariant
`0 ≤ price ∧ 2 ≤ (trimmed name).length`; an input violating the invariant
makes the operation fail with a `ValidationError`.  Failure is atomic by
construction of the embedding: an erroring operation returns no updated
product, mirroring the source where validation precedes every field
write. -/
theorem C1_invariants (p p' : Product) (v nm pr : JSValue) (ido ow : Option String)
    (ca : Option ℕ) (rand : String) (now : ℕ) (res : ℚ × Product) :
    (Product.construct ido nm pr ow ca rand now = .ok p' → ProductInv p') ∧
    (ProductInv p → p.setName v = .ok p' → ProductInv p') ∧
    (ProductInv p → p.setPrice v = .ok p' → ProductInv p') ∧
    (ProductInv p → p.applyDiscount v = .ok res → ProductInv res.2) ∧
    ((∀ s, v = .str s → (jsTrim s).length < 2) →
      p.setName v = .error (.validationError "Invalid product name (2+ chars required).")) ∧
    ((toNumber v = none ∨ ∃ q, toNumber v = some q ∧ q < 0) →
      p.setPrice v = .error (.validationError "Invalid price (must be >= 0).")) ∧
    ((∀ s, nm = .str s → (jsTrim s).length < 2) →
      ∃ e, Product.construct ido nm pr ow ca rand now = .error e ∧ e.isValidation = true) := by
  refine ⟨?_, ?_, ?_, ?_, ?_, ?_, ?_⟩
  · intro h
    rw [construct_eq] at h
    rcases hn : Product.validateName nm with e | s <;> rw [hn] at h
    · cases h
    · rcases hp : Product.validatePrice pr with f | q <;> rw [hp] at h
      · cases h
      · cases h
        obtain ⟨hlen, _⟩ := validateName_ok nm s hn
        obtain ⟨hq, _⟩ := validatePrice_ok pr q hp
        exact ⟨hq, hlen⟩
  · intro hinv h
    unfold Product.setName at h
    rcases hn : Product.validateName v with e | s <;> rw [hn] at h <;> dsimp [Except.map] at h
    · cases h
    · cases h
      obtain ⟨hlen, _⟩ := validateName_ok v s hn
      exact ⟨hinv.1, hlen⟩
  · intro hinv h
    unfold Product.setPrice at h
    rcases hp : Product.validatePrice v with e | q <;> rw [hp] at h <;> dsimp [Except.map] at h
    · cases h
    · cases h
      obtain ⟨hq, _⟩ := validatePrice_ok v q hp
      exact ⟨hq, hinv.2⟩
  · intro hinv h
    unfold Product.applyDiscount at h
    rcases hv : toNumber v with _ | pc <;> rw [hv] at h <;> dsimp only at h
    · cases h
    · by_cases hrange : pc < 0 ∨ 100 < pc
      · rw [if_pos hrange] at h
        cases h
      · rw [if_neg hrange] at h
        cases h
        push_neg at hrange
        refine ⟨round2_nonneg _ ?_, hinv.2⟩
        have h1 : (0 : ℚ) ≤ 1 - pc / 100 := by
          have := hrange.2
          linarith
        exact mul_nonneg hinv.1 h1
  · intro hbad
    unfold Product.setName Product.validateName
    cases v with
    | str s =>
      dsimp only
      rw [if_pos (hbad s rfl)]
      rfl
    | num q => rfl
    | nan => rfl
    | null => rfl
    | undef => rfl
    | bool b => rfl
  · intro hbad
    unfold Product.setPrice Product.validatePrice
    rcases hbad with hnone | ⟨q, hq, hlt⟩
    · rw [hnone]
      rfl
    · rw [hq]
      dsimp only
      rw [if_pos hlt]
      rfl
  · intro hbad
    rw [construct_eq]
    have herr : Product.validateName nm
        = .error (.validationError "Invalid product name (2+ chars required).") := by
      unfold Product.validateName
      cases nm with
      | str s =>
        dsimp only
        rw [if_pos (hbad s rfl)]
      | num q => rfl
      | nan => rfl
      | null => rfl
      | undef => rfl
      | bool b => rfl
    rw [herr]
    exact ⟨_, rfl, rfl⟩

/-- C1 witness: constructing a product from valid inputs establishes the
invariant, and a one-character name as well as a negative price are rejected
with a `ValidationError`. -/
theorem C1_invariants_witness :
    ProductInv (Product.mk "p_abcdefgh" "Watch" (round2 120) "Mona" 5) ∧
    Product.setName (Product.mk "p_a" "Watch" 10 "Mona" 0) (.str "a")
      = .error (.validationError "Invalid product name (2+ chars required).") ∧
    Product.setPrice (Product.mk "p_a" "Watch" 10 "Mona" 0) (.num (-1))
      = .error (.validationError "Invalid price (must be >= 0).") := by
  have hcon : Product.construct none (.str "Watch") (.num 120) (some "Mona") none
      "0.abcdefgh" 5 = .ok (Product.mk "p_abcdefgh" "Watch" (round2 120) "Mona" 5) := by
    rw [construct_eq]
    have hn : Product.validateName (.str "Watch") = .ok "Watch" := rfl
    have hp : Product.validatePrice (.num 120) = .ok (round2 120) := by
      unfold Product.validatePrice toNumber
      dsimp only
      rw [if_neg (by norm_num)]
    rw [hn, hp]
    rfl
  refine ⟨(C1_invariants (Product.mk "p_a" "Watch" 10 "Mona" 0) _ .null (.str "Watch")
      (.num 120) none (some "Mona") none "0.abcdefgh" 5 (0, Product.mk "" "" 0 "" 0)).1 hcon,
    (C1_invariants (Product.mk "p_a" "Watch" 10 "Mona" 0) (Product.mk "" "" 0 "" 0)
      (.str "a") .null .null none none none "" 0 (0, Product.mk "" "" 0 "" 0)).2.2.2.2.1 ?_,
    (C1_invariants (Product.mk "p_a" "Watch" 10 "Mona" 0) (Product.mk "" "" 0 "" 0)
      (.num (-1)) .null .null none none none "" 0 (0, Product.mk "" "" 0 "" 0)).2.2.2.2.2.1 ?_⟩
  · intro s hs
    cases hs
    decide
  · right
    exact ⟨-1, rfl, by norm_num⟩

/-- C2: `applyDiscount` coerces its argument with `Number(...)` and fails
with a `ValidationError` exactly when the coerced percent is `NaN` or
outside `[0, 100]`; otherwise it stores and returns
`price * (1 - percent/100)` rounded to two decimals.  A 50% discount on
price 10 yields 5, 150 is rejected, and 0 is a no-op returning the original
price. -/
theorem C2_applyDiscount (p : Product) (v : JSValue) (q : ℚ) :
    (toNumber v = none → p.applyDiscount v
      = .error (.validationError "Discount percent must be between 0 and 100.")) ∧
    (toNumber v = some q → q < 0 ∨ 100 < q → p.applyDiscount v
      = .error (.validationError "Discount percent must be between 0 and 100.")) ∧
    (toNumber v = some q → 0 ≤ q → q ≤ 100 → p.applyDiscount v
      = .ok (round2 (p.price * (1 - q / 100)), { p with price := round2 (p.price * (1 - q / 100)) })) ∧
    (p.price = 10 → p.applyDiscount (.num 50) = .ok (5, { p with price := 5 })) ∧
    (p.applyDiscount (.num 150)
      = .error (.validationError "Discount percent must be between 0 and 100.")) ∧
    (round2 p.price = p.price → p.applyDiscount (.num 0) = .ok (p.price, p)) := by
  have hok : ∀ (w : JSValue) (r : ℚ), toNumber w = some r → 0 ≤ r → r ≤ 100 →
      p.applyDiscount w
      = .ok (round2 (p.price * (1 - r / 100)), { p with price := round2 (p.price * (1 - r / 100)) }) := by
    intro w r hw h0 h100
    unfold Product.applyDiscount
    rw [hw]
    dsimp only
    rw [if_neg (by push_neg; exact ⟨h0, h100⟩)]
  have herr : ∀ (w : JSValue) (r : ℚ), toNumber w = some r → r < 0 ∨ 100 < r →
      p.applyDiscount w
      = .error (.validationError "Discount percent must be between 0 and 100.") := by
    intro w r hw hr
    unfold Product.applyDiscount
    rw [hw]
    dsimp only
    rw [if_pos hr]
  have hnan : ∀ w : JSValue, toNumber w = none → p.applyDiscount w
      = .error (.validationError "Discount percent must be between 0 and 100.") := by
    intro w hw
    unfold Product.applyDiscount
    rw [hw]
  refine ⟨hnan v, herr v q, hok v q, ?_, herr (.num 150) 150 rfl (by norm_num), ?_⟩
  · intro hp
    rw [hok (.num 50) 50 rfl (by norm_num) (by norm_num), hp]
    have : round2 ((10 : ℚ) * (1 - 50 / 100)) = 5 := by
      norm_num [round2]
    rw [this]
  · intro hfix
    rw [hok (.num 0) 0 rfl le_rfl (by norm_num)]
    have h1 : p.price * (1 - (0 : ℚ) / 100) = p.price := by ring
    rw [h1, hfix]

/-- C2 witness: on a product priced 10, a 50% discount yields exactly 5, a
0% discount is a no-op, and 150 is rejected. -/
theorem C2_applyDiscount_witness :
    Product.applyDiscount (Product.mk "p_a" "Phone" 10 "Mona" 0) (.num 50)
      = .ok (5, Product.mk "p_a" "Phone" 5 "Mona" 0) ∧
    Product.applyDiscount (Product.mk "p_a" "Phone" 10 "Mona" 0) (.num 0)
      = .ok (10, Product.mk "p_a" "Phone" 10 "Mona" 0) := by
  refine ⟨(C2_applyDiscount (Product.mk "p_a" "Phone" 10 "Mona" 0) (.num 50) 50).2.2.2.1 rfl,
    (C2_applyDiscount (Product.mk "p_a" "Phone" 10 "Mona" 0) (.num 0) 0).2.2.2.2.2 ?_⟩
  norm_num [round2]

/-- C3: for every valid product (stored invariants: trimmed name of length
at least 2, non-negative price already rounded to two decimals, timestamp
within the four-digit-year ISO range), `fromJSON (toJSON p)` reconstructs a
product with identical id, name, price, owner and createdAt (to the
millisecond); `toJSON` serializes the timestamp as an ISO-8601 string and
deserialization parses it back to the same time value. -/
theorem C3_serialization_roundtrip (p : Product) (rand : String) (now : ℕ)
    (hname : jsTrim p.name = p.name) (hlen : 2 ≤ (jsTrim p.name).length)
    (hprice : round2 p.price = p.price) (hpos : 0 ≤ p.price)
    (hdate : p.createdAt < 253402300800000) :
    Product.fromJSON (Product.toJSON p) rand now = .ok p ∧
    (Product.toJSON p).createdAt = toISOString p.createdAt ∧
    parseJSDateMs ((Product.toJSON p).createdAt) = some p.createdAt := by
  refine ⟨?_, rfl, parse_toISOString p.createdAt hdate⟩
  unfold Product.fromJSON
  rw [construct_eq]
  have hn : Product.validateName (.str (Product.toJSON p).name) = .ok p.name := by
    show Product.validateName (.str p.name) = .ok p.name
    unfold Product.validateName
    dsimp only
    rw [if_neg (by omega), hname]
  have hp : Product.validatePrice (.num (Product.toJSON p).price) = .ok p.price := by
    show Product.validatePrice (.num p.price) = .ok p.price
    unfold Product.validatePrice toNumber
    dsimp only
    rw [if_neg (not_lt.mpr hpos), hprice]
  rw [hn, hp]
  dsimp only [Product.toJSON]
  rw [if_neg (toISOString_ne_empty p.createdAt)]
  rw [parse_toISOString p.createdAt hdate]
  rfl

/-- C3 witness: a concrete valid product round-trips through
`toJSON`/`fromJSON` unchanged, timestamp included. -/
theorem C3_serialization_roundtrip_witness :
    Product.fromJSON (Product.toJSON (Product.mk "p_x" "Watch" 120 "Mona" 1700000000123))
        "0.abcdefgh" 0
      = .ok (Product.mk "p_x" "Watch" 120 "Mona" 1700000000123) ∧
    parseJSDateMs ((Product.toJSON
        (Product.mk "p_x" "Watch" 120 "Mona" 1700000000123)).createdAt)
      = some 1700000000123 := by
  have h := C3_serialization_roundtrip (Product.mk "p_x" "Watch" 120 "Mona" 1700000000123)
    "0.abcdefgh" 0 (by decide) (by decide) (by norm_num [round2]) (by norm_num) (by norm_num)
  exact ⟨h.1, h.2.2⟩

/-- C4 counterexample: the claim asserts that any two products constructed
without an explicit id receive distinct generated ids; but the generator is
`"p_" + Math.random().toString(36).slice(2, 10)` with no uniqueness
guarantee, so two constructions whose random oracle yields the same output
collide: two distinct products with equal ids. -/
theorem C4_counterexample :
    Product.construct none (.str "AB") (.num 1) (some "Alice") none "0.abcdefgh" 0
      = .ok (Product.mk "p_abcdefgh" "AB" (round2 1) "Alice" 0) ∧
    Product.construct none (.str "CD") (.num 2) (some "Bob") none "0.abcdefgh" 0
      = .ok (Product.mk "p_abcdefgh" "CD" (round2 2) "Bob" 0) ∧
    (Product.mk "p_abcdefgh" "AB" (round2 1) "Alice" 0).id
      = (Product.mk "p_abcdefgh" "CD" (round2 2) "Bob" 0).id ∧
    Product.mk "p_abcdefgh" "AB" (round2 1) "Alice" 0
      ≠ Product.mk "p_abcdefgh" "CD" (round2 2) "Bob" 0 := by
  have h1 : Product.validatePrice (.num 1) = .ok (round2 1) := by
    unfold Product.validatePrice toNumber
    dsimp only
    rw [if_neg (by norm_num)]
  have h2 : Product.validatePrice (.num 2) = .ok (round2 2) := by
    unfold Product.validatePrice toNumber
    dsimp only
    rw [if_neg (by norm_num)]
  refine ⟨?_, ?_, rfl, ?_⟩
  · rw [construct_eq, show Product.validateName (.str "AB") = .ok "AB" from rfl, h1]
    rfl
  · rw [construct_eq, show Product.validateName (.str "CD") = .ok "CD" from rfl, h2]
    rfl
  · intro h
    have := congrArg Product.name h
    exact absurd this (by decide)

/-- C4 (amended): ids generated at construction differ whenever the random
oracle outputs differ in the sliced suffix, and the id assigned at
construction is immutable — no setter or method changes it.  (Unconditional
global uniqueness does not hold; see the counterexample.) -/
theorem C4_id_generation (r1 r2 : String) (nm1 pr1 nm2 pr2 v : JSValue)
    (ow1 ow2 : Option String) (ca1 ca2 : Option ℕ) (n1 n2 : ℕ)
    (p1 p2 p p' : Product) (res : ℚ × Product) :
    (Product.construct none nm1 pr1 ow1 ca1 r1 n1 = .ok p1 →
      Product.construct none nm2 pr2 ow2 ca2 r2 n2 = .ok p2 →
      jsSlice r1 2 10 ≠ jsSlice r2 2 10 → p1.id ≠ p2.id) ∧
    (p.setName v = .ok p' → p'.id = p.id) ∧
    (p.setPrice v = .ok p' → p'.id = p.id) ∧
    (p.applyDiscount v = .ok res → res.2.id = p.id) := by
  have idOf : ∀ (nm pr : JSValue) (ow : Option String) (ca : Option ℕ) (r : String)
      (n : ℕ) (q : Product), Product.construct none nm pr ow ca r n = .ok q →
      q.id = Product.generateId r := by
    intro nm pr ow ca r n q h
    rw [construct_eq] at h
    rcases hn : Product.validateName nm with e | s <;> rw [hn] at h
    · cases h
    · rcases hp : Product.validatePrice pr with f | pq <;> rw [hp] at h
      · cases h
      · cases h
        rfl
  refine ⟨?_, ?_, ?_, ?_⟩
  · intro h1 h2 hs heq
    rw [idOf nm1 pr1 ow1 ca1 r1 n1 p1 h1, idOf nm2 pr2 ow2 ca2 r2 n2 p2 h2] at heq
    unfold Product.generateId at heq
    have hd := congrArg String.data heq
    simp only [String.data_append] at hd
    exact hs (String.ext (by simpa using hd))
  · intro h
    unfold Product.setName at h
    rcases hn : Product.validateName v with e | s <;> rw [hn] at h <;> dsimp [Except.map] at h
    · cases h
    · cases h
      rfl
  · intro h
    unfold Product.setPrice at h
    rcases hp : Product.validatePrice v with e | q <;> rw [hp] at h <;> dsimp [Except.map] at h
    · cases h
    · cases h
      rfl
  · intro h
    unfold Product.applyDiscount at h
    rcases hv : toNumber v with _ | pc <;> rw [hv] at h <;> dsimp only at h
    · cases h
    · by_cases hr : pc < 0 ∨ 100 < pc
      · rw [if_pos hr] at h
        cases h
      · rw [if_neg hr] at h
        cases h
        rfl

/-- C4 witness: two constructions with different random suffixes receive
different ids. -/
theorem C4_id_generation_witness :
    (Product.mk "p_aaaaaaaa" "AB" (round2 1) "Alice" 0).id
      ≠ (Product.mk "p_bbbbbbbb" "CD" (round2 2) "Bob" 0).id := by
  have h1 : Product.construct none (.str "AB") (.num 1) (some "Alice") none
      "0.aaaaaaaa" 0 = .ok (Product.mk "p_aaaaaaaa" "AB" (round2 1) "Alice" 0) := by
    rw [construct_eq, show Product.validateName (.str "AB") = .ok "AB" from rfl]
    rw [show Product.validatePrice (.num 1) = .ok (round2 1) from by
      unfold Product.validatePrice toNumber
      dsimp only
      rw [if_neg (by norm_num)]]
    rfl
  have h2 : Product.construct none (.str "CD") (.num 2) (some "Bob") none
      "0.bbbbbbbb" 0 = .ok (Product.mk "p_bbbbbbbb" "CD" (round2 2) "Bob" 0) := by
    rw [construct_eq, show Product.validateName (.str "CD") = .ok "CD" from rfl]
    rw [show Product.validatePrice (.num 2) = .ok (round2 2) from by
      unfold Product.validatePrice toNumber
      dsimp only
      rw [if_neg (by norm_num)]]
    rfl
  exact (C4_id_generation "0.aaaaaaaa" "0.bbbbbbbb" (.str "AB") (.num 1) (.str "CD")
    (.num 2) .null (some "Alice") (some "Bob") none none 0 0 _ _
    (Product.mk "" "" 0 "" 0) (Product.mk "" "" 0 "" 0) (0, Product.mk "" "" 0 "" 0)).1
    h1 h2 (by decide)

/-- C5: `User.deleteProduct` fails with `NotFoundError` when no owned
product has the id; when one is present it removes exactly the first match,
keeping all other products in their original order, returns the removed
product, and the remaining `listProducts()` excludes the id (when it
occurred uniquely). -/
theorem C5_deleteProduct (u : User) (pid : String) (pre post : List Product) (tgt : Product) :
    ((∀ p ∈ u.products, p.id ≠ pid) →
      u.deleteProduct pid = .error (.notFoundError "Product not found")) ∧
    (u.products = pre ++ tgt :: post → (∀ p ∈ pre, p.id ≠ pid) → tgt.id = pid →
      u.deleteProduct pid = .ok (tgt, { u with products := pre ++ post }) ∧
      ({ u with products := pre ++ post } : User).listProducts = pre ++ post ∧
      ((∀ p ∈ pre ++ post, p.id ≠ pid) →
        ∀ p ∈ ({ u with products := pre ++ post } : User).listProducts, p.id ≠ pid)) := by
  have rfNone : ∀ l : List Product, (∀ p ∈ l, p.id ≠ pid) →
      User.removeFirst (fun p => p.id = pid) l = none := by
    intro l
    induction l with
    | nil => intro _; rfl
    | cons hd tl ih =>
      intro h
      have hhd : ¬(hd.id = pid) := h hd (List.mem_cons_self hd tl)
      simp only [User.removeFirst, decide_eq_true_eq]
      rw [if_neg hhd, ih (fun p hp => h p (List.mem_cons_of_mem hd hp))]
      rfl
  have rfSplit : ∀ l : List Product, (∀ p ∈ l, p.id ≠ pid) → tgt.id = pid →
      User.removeFirst (fun p => p.id = pid) (l ++ tgt :: post) = some (tgt, l ++ post) := by
    intro l
    induction l with
    | nil =>
      intro _ htgt
      simp only [List.nil_append, User.removeFirst, decide_eq_true_eq]
      rw [if_pos htgt]
    | cons hd tl ih =>
      intro h htgt
      have hhd : ¬(hd.id = pid) := h hd (List.mem_cons_self hd tl)
      simp only [List.cons_append, User.removeFirst, decide_eq_true_eq, List.append_eq]
      rw [if_neg hhd, ih (fun p hp => h p (List.mem_cons_of_mem hd hp)) htgt]
      rfl
  constructor
  · intro h
    unfold User.deleteProduct
    rw [rfNone u.products h]
  · intro hsplit hpre htgt
    refine ⟨?_, rfl, fun h p hp => h p hp⟩
    unfold User.deleteProduct
    rw [hsplit, rfSplit pre hpre htgt]

/-- C5 witness: deleting a present id removes exactly that product and
returns it; deleting an absent id fails with `NotFoundError`. -/
theorem C5_deleteProduct_witness :
    User.deleteProduct
        (User.mk "Mona" "m@e.com" "user"
          [Product.mk "p_1" "Phone Case" 10 "Mona" 0, Product.mk "p_2" "Power Bank" 30 "Mona" 0])
        "p_1"
      = .ok (Product.mk "p_1" "Phone Case" 10 "Mona" 0,
          User.mk "Mona" "m@e.com" "user" [Product.mk "p_2" "Power Bank" 30 "Mona" 0]) ∧
    User.deleteProduct (User.mk "Mona" "m@e.com" "user" []) "p_9"
      = .error (.notFoundError "Product not found") := by
  constructor
  · exact ((C5_deleteProduct
      (User.mk "Mona" "m@e.com" "user"
        [Product.mk "p_1" "Phone Case" 10 "Mona" 0, Product.mk "p_2" "Power Bank" 30 "Mona" 0])
      "p_1" [] [Product.mk "p_2" "Power Bank" 30 "Mona" 0]
      (Product.mk "p_1" "Phone Case" 10 "Mona" 0)).2 rfl (by simp) rfl).1
  · exact (C5_deleteProduct (User.mk "Mona" "m@e.com" "user" []) "p_9" [] []
      (Product.mk "" "" 0 "" 0)).1 (by simp)

/-- C7 counterexample: the claim restricts the admin capability to deleting
from a *different* user's collection, but the code performs only an
`instanceof User` check: an admin passing itself as the target deletes from
its own collection successfully. -/
theorem C7_counterexample :
    AdminUser.deleteProductFromUser
        (User.mk "Ziad" "z@e.com" "admin" [Product.mk "p_q" "Case" 10 "Ziad" 0])
        (.user (User.mk "Ziad" "z@e.com" "admin" [Product.mk "p_q" "Case" 10 "Ziad" 0]))
        "p_q"
      = .ok (Product.mk "p_q" "Case" 10 "Ziad" 0, User.mk "Ziad" "z@e.com" "admin" []) := by
  unfold AdminUser.deleteProductFromUser User.deleteProduct User.removeFirst
  simp

/-- C7 (amended): `deleteProductFromUser` fails with a `TypeMismatchError`
exactly when the target is not a `User` instance, and otherwise delegates to
`targetUser.deleteProduct(id)` (propagating its `NotFoundError`) for any
`User` target — including the admin itself; an `AdminUser` is a `User` whose
role is fixed to `"admin"`. -/
theorem C7_admin_delegation (a u : User) (v : JSValue) (pid nm em : String) :
    AdminUser.deleteProductFromUser a (.other v) pid
      = .error (.typeMismatchError "Target must be a User instance.") ∧
    AdminUser.deleteProductFromUser a (.user u) pid = u.deleteProduct pid ∧
    (AdminUser.make nm em).role = "admin" ∧
    (AdminUser.make nm em).isAdmin = true := by
  exact ⟨rfl, rfl, rfl, rfl⟩

/-- C6: `ProductService.discount` fails with `NotFoundError` when the id is
absent from the repository, and otherwise applies the product's
`applyDiscount` and persists the result through the repository's `update`;
adding `"Watch"` at 120 for `"Mona"` and discounting by 10 stores price
108. -/
theorem C6_service_discount (repo r1 : ProductRepository) (id : String)
    (pc : JSValue) (p : Product) (rand : String) (now : ℕ) :
    (repo.getById id = none →
      ProductService.discount repo id pc = .error (.notFoundError "Product not found")) ∧
    (repo.getById id = some p →
      ProductService.discount repo id pc
        = (p.applyDiscount pc).bind (fun r => repo.update r.2)) ∧
    (ProductService.addNewProduct ProductRepository.empty (.str "Watch") (.num 120)
        (some "Mona") rand now = .ok (p, r1) →
      ∃ r2, ProductService.discount r1 p.id (.num 10) = .ok r2 ∧
        (r2.getById p.id).map Product.price = some 108) := by
  refine ⟨?_, ?_, ?_⟩
  · intro h
    unfold ProductService.discount
    rw [h]
  · intro h
    unfold ProductService.discount
    rw [h]
  · intro hadd
    have hcon : Product.construct none (.str "Watch") (.num 120) (some "Mona") none
        rand now
        = .ok (Product.mk (Product.generateId rand) "Watch" (round2 120) "Mona" now) := by
      rw [construct_eq, show Product.validateName (.str "Watch") = .ok "Watch" from rfl]
      rw [show Product.validatePrice (.num 120) = .ok (round2 120) from by
        unfold Product.validatePrice toNumber
        dsimp only
        rw [if_neg (by norm_num)]]
      rfl
    unfold ProductService.addNewProduct at hadd
    rw [hcon] at hadd
    dsimp [Except.map] at hadd
    cases hadd
    set P := Product.mk (Product.generateId rand) "Watch" (round2 120) "Mona" now with hP
    set P' := Product.mk (Product.generateId rand) "Watch"
      (round2 (round2 120 * (1 - 10 / 100))) "Mona" now with hP'
    set C := ProductRepository.create ProductRepository.empty P with hC
    have hget : C.getById P.id = some P := by
      rw [hC]
      unfold ProductRepository.create ProductRepository.getById ProductRepository.empty
      exact mapGet_mapSet_self [] P.id P
    have hdisc : P.applyDiscount (.num 10)
        = .ok (round2 (P.price * (1 - 10 / 100)), P') := by
      unfold Product.applyDiscount
      dsimp only [toNumber]
      rw [if_neg (by norm_num)]
    have hupd : ProductRepository.update C P' = .ok ⟨mapSet C.store P'.id P'⟩ := by
      unfold ProductRepository.update
      have hsome : mapGet C.store P'.id = some P := by
        have hid : P'.id = P.id := rfl
        rw [hid]
        exact hget
      rw [hsome]
      rfl
    refine ⟨⟨mapSet C.store P'.id P'⟩, ?_, ?_⟩
    · unfold ProductService.discount
      rw [hget]
      dsimp only
      rw [hdisc]
      dsimp only [Except.bind]
      exact hupd
    · have h2 : (ProductRepository.mk (mapSet C.store P'.id P')).getById P.id = some P' :=
        mapGet_mapSet_self C.store P'.id P'
      rw [h2]
      simp only [Option.map_some']
      norm_num [round2]

/-- C6 witness: with a concrete random oracle and clock, the add-then-
discount scenario stores price 108 for the generated id. -/
theorem C6_service_discount_witness :
    ∃ r2, ProductService.discount
        (ProductRepository.mk [("p_abcdefgh",
          Product.mk "p_abcdefgh" "Watch" (round2 120) "Mona" 0)])
        "p_abcdefgh" (.num 10) = .ok r2 ∧
      (r2.getById "p_abcdefgh").map Product.price = some 108 := by
  have hadd : ProductService.addNewProduct ProductRepository.empty (.str "Watch")
      (.num 120) (some "Mona") "0.abcdefgh" 0
      = .ok (Product.mk "p_abcdefgh" "Watch" (round2 120) "Mona" 0,
          ProductRepository.mk [("p_abcdefgh",
            Product.mk "p_abcdefgh" "Watch" (round2 120) "Mona" 0)]) := by
    unfold ProductService.addNewProduct
    rw [show Product.construct none (.str "Watch") (.num 120) (some "Mona") none
        "0.abcdefgh" 0
        = .ok (Product.mk "p_abcdefgh" "Watch" (round2 120) "Mona" 0) from by
      rw [construct_eq, show Product.validateName (.str "Watch") = .ok "Watch" from rfl]
      rw [show Product.validatePrice (.num 120) = .ok (round2 120) from by
        unfold Product.validatePrice toNumber
        dsimp only
        rw [if_neg (by norm_num)]]
      rfl]
    rfl
  simpa using (C6_service_discount ProductRepository.empty
    (ProductRepository.mk [("p_abcdefgh",
      Product.mk "p_abcdefgh" "Watch" (round2 120) "Mona" 0)])
    "p_abcdefgh" (.num 10)
    (Product.mk "p_abcdefgh" "Watch" (round2 120) "Mona" 0) "0.abcdefgh" 0).2.2 hadd

/-- C10: `User.findProductsByName` and `ProductRepository.findByNameLike`
are total functions of an arbitrary JS query value: the query is stringified
and lowercased and matched as a case-insensitive substring, so membership in
the result is exactly membership in the collection plus the substring test
(a `null` query searches for the text `"null"`). -/
theorem C10_search_stringifies (u : User) (r : ProductRepository) (q : JSValue) (p : Product) :
    (p ∈ u.findProductsByName q ↔
      p ∈ u.products ∧ jsIncludes (jsToLower p.name) (jsToLower (jsToString q)) = true) ∧
    (p ∈ r.findByNameLike q ↔
      p ∈ r.getAll ∧ jsIncludes (jsToLower p.name) (jsToLower (jsToString q)) = true) ∧
    jsToString .null = "null" ∧ jsToString .undef = "undefined" := by
  refine ⟨?_, ?_, rfl, rfl⟩
  · simp [User.findProductsByName, List.mem_filter]
  · simp [ProductRepository.findByNameLike, List.mem_filter]

end OOP
